import Mathlib

/-!
Verification development for the AMSKY01 firmware (TSL2591 photometric
auto-ranging controller, SQM conversion utilities, and the MLX90641 thermal
pipeline with its register bus driver).  Each definition is a shallow
embedding of the corresponding C++ function; machine integers are modelled
as `Nat`/`Int` with explicit masking, float arithmetic is modelled exactly
over `ℚ` (and `ℝ` where transcendental functions appear), and fallible bus
operations return `Option`.
-/

namespace AMSKY01

/-! ## TSL2591 photometric controller (AMS_TSL2591.cpp)

Gain levels, integration times and adjustment modes are the enumerations
`tsl2591Gain_t`, `tsl2591IntegrationTime_t` and `LastAdjustmentType` from
AMS_TSL2591.h. -/

inductive Gain
  | low
  | med
  | high
  | max
deriving DecidableEq, Repr, Fintype

inductive ITime
  | t100
  | t200
  | t300
  | t400
  | t500
  | t600
deriving DecidableEq, Repr, Fintype

inductive AdjType
  | none
  | gain
  | integration
  | both
deriving DecidableEq, Repr, Fintype

/-- Position of a gain level in the enumerated order LOW < MED < HIGH < MAX. -/
def gainIdx : Gain → ℕ
  | Gain.low => 0
  | Gain.med => 1
  | Gain.high => 2
  | Gain.max => 3

/-- Position of an integration time in the enumerated order 100ms < … < 600ms. -/
def itIdx : ITime → ℕ
  | ITime.t100 => 0
  | ITime.t200 => 1
  | ITime.t300 => 2
  | ITime.t400 => 3
  | ITime.t500 => 4
  | ITime.t600 => 5

/-- Distance between two enumeration positions (`0` = no move, `1` = adjacent). -/
def levelGap (a b : ℕ) : ℕ := max (a - b) (b - a)

/-- Aggressive gain drop used under extreme saturation (lines 102-107):
MAX skips HIGH, HIGH skips MED, MED steps to LOW. -/
def extremeGainDrop : Gain → Gain
  | Gain.max => Gain.med
  | Gain.high => Gain.low
  | Gain.med => Gain.low
  | g => g

/-- Single-step gain reduction (the regular `switch` blocks). -/
def gainDown : Gain → Gain
  | Gain.max => Gain.high
  | Gain.high => Gain.med
  | Gain.med => Gain.low
  | g => g

/-- Single-step gain increase (lines 193-199). -/
def gainUp : Gain → Gain
  | Gain.low => Gain.med
  | Gain.med => Gain.high
  | Gain.high => Gain.max
  | g => g

/-- Aggressive integration-time drop under extreme saturation (lines 117-123):
600→300, 500→200, 400→100, 300→100, 200→100. -/
def extremeItDrop : ITime → ITime
  | ITime.t600 => ITime.t300
  | ITime.t500 => ITime.t200
  | ITime.t400 => ITime.t100
  | ITime.t300 => ITime.t100
  | ITime.t200 => ITime.t100
  | it => it

/-- Single-step integration-time reduction. -/
def itDown : ITime → ITime
  | ITime.t600 => ITime.t500
  | ITime.t500 => ITime.t400
  | ITime.t400 => ITime.t300
  | ITime.t300 => ITime.t200
  | ITime.t200 => ITime.t100
  | it => it

/-- Single-step integration-time increase (lines 184-190). -/
def itUp : ITime → ITime
  | ITime.t100 => ITime.t200
  | ITime.t200 => ITime.t300
  | ITime.t300 => ITime.t400
  | ITime.t400 => ITime.t500
  | ITime.t500 => ITime.t600
  | it => it

/-- Saturation classification of the raw full-channel value.  This captures
the decision ladder of `adjustGainAndIntegrationTime`: the extreme branch
tests `full > 35000` (EXTREME_SATURATED_THRESHOLD); the chained branches
test `32000 < full ≤ 35000` (GAIN_SATURATED_THRESHOLD window), then
`full > 30000` (INTEGRATION_TIME_DECREASE_THRESHOLD) and
`full < 1500` (INTEGRATION_TIME_INCREASE_THRESHOLD). -/
inductive SatClass
  | extreme
  | regular
  | high
  | low
  | window
deriving DecidableEq, Repr, Fintype

def classify (full : ℕ) : SatClass :=
  if 35000 < full then SatClass.extreme
  else if 32000 < full then SatClass.regular
  else if 30000 < full then SatClass.high
  else if full < 1500 then SatClass.low
  else SatClass.window

/-- Core of `AMS_TSL2591::adjustGainAndIntegrationTime` (lines 79-222).
`samePrev` is `full_value == previous_measurement` (the negation of
`improvement_detected`).  The result is the final
`(new_gain, new_integration_time, last_adjustment_type, returned bool)`;
the sequential overwrites of `new_gain`/`new_integration_time`/`changed`
in the C++ are threaded through `let` rebindings in source order. -/
def adjustCore (c : SatClass) (samePrev : Bool) (g : Gain) (it : ITime) (t0 : AdjType) :
    Gain × ITime × AdjType × Bool :=
  let t := if samePrev then (if t0 = AdjType.gain then AdjType.integration else AdjType.gain)
           else AdjType.both
  let s1 : Gain × Bool :=
    if (t = AdjType.gain ∨ t = AdjType.both) ∧ c = SatClass.extreme ∧ g ≠ Gain.low then
      (extremeGainDrop g, true)
    else (g, false)
  let s2 : ITime × Bool :=
    if (t = AdjType.integration ∨ t = AdjType.both) ∧ c = SatClass.extreme ∧ it ≠ ITime.t100 then
      (extremeItDrop it, true)
    else (it, s1.2)
  let s3 : Gain × ITime × Bool :=
    match c with
    | SatClass.regular =>
      if t = AdjType.gain ∨ t = AdjType.both then
        let p1 : Gain × Bool := if g ≠ Gain.low then (gainDown g, true) else (s1.1, s2.2)
        let p2 : ITime × Bool := if it ≠ ITime.t100 then (itDown it, true) else (s2.1, p1.2)
        (p1.1, p2.1, p2.2)
      else (s1.1, s2.1, s2.2)
    | SatClass.extreme =>
      if it ≠ ITime.t100 then (s1.1, itDown it, true)
      else if g ≠ Gain.low then (gainDown g, s2.1, true)
      else (s1.1, s2.1, s2.2)
    | SatClass.high =>
      if it ≠ ITime.t100 then (s1.1, itDown it, true)
      else if g ≠ Gain.low then (gainDown g, s2.1, true)
      else (s1.1, s2.1, s2.2)
    | SatClass.low =>
      if it ≠ ITime.t600 then (s1.1, itUp it, true)
      else if g ≠ Gain.max then (gainUp g, s2.1, true)
      else (s1.1, s2.1, s2.2)
    | SatClass.window => (s1.1, s2.1, s2.2)
  if s3.2.2 = false ∨ (s3.1 = g ∧ s3.2.1 = it) then (g, it, t, false)
  else (s3.1, s3.2.1, t, true)

/-- Controller state owned by `AMS_TSL2591` that the control step touches. -/
structure TslState where
  current_gain : Gain
  current_integration_time : ITime
  last_adjustment_type : AdjType
  previous_measurement : ℕ
deriving DecidableEq, Repr

/-- `AMS_TSL2591::adjustGainAndIntegrationTime`: one control step on the raw
full-channel value.  Returns the new state and the C++ return value (`true`
iff a new gain/integration was applied). -/
def adjustGainAndIntegrationTime (full_value : ℕ) (s : TslState) : TslState × Bool :=
  let r := adjustCore (classify full_value) (decide (full_value = s.previous_measurement))
      s.current_gain s.current_integration_time s.last_adjustment_type
  (⟨r.1, r.2.1, r.2.2.1, full_value⟩, r.2.2.2)

/-- Iterated control steps under a constant raw input. -/
def runSteps (full : ℕ) : ℕ → TslState → TslState
  | 0, s => s
  | n + 1, s => runSteps full n (adjustGainAndIntegrationTime full s).1

/-- Abstract step on `(gain, integration, type)` once the previous measurement
equals the constant input (so `samePrev` is true). -/
def absStep (c : SatClass) (x : Gain × ITime × AdjType) : Gain × ITime × AdjType :=
  let r := adjustCore c true x.1 x.2.1 x.2.2
  (r.1, r.2.1, r.2.2.1)

def absRun (c : SatClass) : ℕ → Gain × ITime × AdjType → Gain × ITime × AdjType
  | 0, x => x
  | n + 1, x => absRun c n (absStep c x)

/-! ## SQM conversion (sqm_utils.h)

Float arithmetic is modelled exactly: the measurement algebra over `ℚ`, the
transcendental step over `ℝ`. -/

/-- Validity checks and normalized visible signal of
`calculate_sqm_from_raw` (sqm_utils.h lines 43-95): `vis_raw = full − ir`
must be positive, and `VIS = vis_raw / (gainValue × (integrationMs/200) × niter)`
must be positive; otherwise the sample is invalid (`none`). -/
def calculate_sqm_vis (ir_raw full_raw : ℕ) (gainValue integrationMs : ℚ) (niter : ℕ) :
    Option ℚ :=
  let vis_raw : ℚ := (full_raw : ℚ) - (ir_raw : ℚ)
  if vis_raw ≤ 0 then none
  else
    let normalization : ℚ := gainValue * (integrationMs / 200) * (niter : ℚ)
    let VIS : ℚ := vis_raw / normalization
    if VIS ≤ 0 then none else some VIS

/-- Result record of `calculate_sqm_from_raw`. -/
structure SQMResult where
  mpsas : ℝ
  dmpsas : ℝ
  valid : Bool

/-- `calculate_sqm_from_raw` (sqm_utils.h lines 43-95): on a valid sample,
`mpsas = sqmOffsetBase − sqmMagnitude × ln VIS + calibrationOffset` and
`dmpsas = sqmMagnitude / sqrt vis_raw` (un-normalized visible count). -/
noncomputable def calculate_sqm_from_raw (ir_raw full_raw : ℕ)
    (gainValue integrationMs : ℚ) (niter : ℕ)
    (sqmOffsetBase sqmMagnitude calibrationOffset : ℝ) : SQMResult :=
  let vis_raw : ℚ := (full_raw : ℚ) - (ir_raw : ℚ)
  if vis_raw ≤ 0 then ⟨0, 0, false⟩
  else
    let normalization : ℚ := gainValue * (integrationMs / 200) * (niter : ℚ)
    let VIS : ℚ := vis_raw / normalization
    if VIS ≤ 0 then ⟨0, 0, false⟩
    else
      ⟨sqmOffsetBase - sqmMagnitude * Real.log (VIS : ℝ) + calibrationOffset,
        sqmMagnitude / Real.sqrt (vis_raw : ℝ), true⟩

/-- Modelled from the spec (claim C4's wording): the normalized visible
signal as the specification states it,
`VIS = (full − ir) × (1 − ir/full) / (gain × integration/200)`.
This definition follows the spec's words, to be compared against
`calculate_sqm_vis`, which follows the source. -/
def specClaimVIS (ir_raw full_raw : ℕ) (gainValue integrationMs : ℚ) : ℚ :=
  ((full_raw : ℚ) - (ir_raw : ℚ)) * (1 - (ir_raw : ℚ) / (full_raw : ℚ))
    / (gainValue * integrationMs / 200)

/-! ## Moving-average buffers of `AMS_TSL2591::readLightData`
(AMS_TSL2591.cpp lines 246-266, MOVING_AVG_SIZE = 16). -/

def MOVING_AVG_SIZE : ℕ := 16

/-- Buffer state owned by `AMS_TSL2591`: ring buffers, write index, occupancy. -/
structure LightBuffers where
  full_buffer : ℕ → ℕ
  ir_buffer : ℕ → ℕ
  buffer_index : ℕ
  buffer_count : ℕ

/-- Lines 252-257: store the raw sample at `buffer_index`, advance the index
modulo `MOVING_AVG_SIZE`, increment the occupancy if below capacity. -/
def pushSample (s : LightBuffers) (full_raw ir_raw : ℕ) : LightBuffers :=
  ⟨fun i => if i = s.buffer_index then full_raw else s.full_buffer i,
    fun i => if i = s.buffer_index then ir_raw else s.ir_buffer i,
    (s.buffer_index + 1) % MOVING_AVG_SIZE,
    if s.buffer_count < MOVING_AVG_SIZE then s.buffer_count + 1 else s.buffer_count⟩

/-- Lines 259-266: averages over the first `buffer_count` stored samples
(integer division, as in the C++). -/
def bufferAverages (s : LightBuffers) : ℕ × ℕ :=
  ((∑ i in Finset.range s.buffer_count, s.full_buffer i) / s.buffer_count,
    (∑ i in Finset.range s.buffer_count, s.ir_buffer i) / s.buffer_count)

/-- Buffer/averaging portion of `AMS_TSL2591::readLightData`: push the new
raw sample, then compute both running averages over the updated occupancy. -/
def readLightData_buffers (s : LightBuffers) (full_raw ir_raw : ℕ) :
    LightBuffers × ℕ × ℕ :=
  let s1 := pushSample s full_raw ir_raw
  (s1, bufferAverages s1)

/-- Construction state of the buffers: zero occupancy and zero index
(C++ zero-initialized members of a fresh controller). -/
def initBuffers : LightBuffers := ⟨fun _ => 0, fun _ => 0, 0, 0⟩

/-- State after a sequence of `readLightData` calls starting from
`initBuffers` (most recent sample first in the list). -/
def runLight : List (ℕ × ℕ) → LightBuffers
  | [] => initBuffers
  | (f, ir) :: rest => (readLightData_buffers (runLight rest) f ir).1

/-! ## MLX90641 register bus driver (MLX90641.cpp lines 193-296)

The two-wire transport is modelled by its observable behavior: whether the
address-write phase of a transaction at a given start address is
acknowledged, how many bytes the device returns for the subsequent read
request, and the 16-bit word stored at each address. -/

structure Transport where
  probeAck : Bool
  ack : ℕ → Bool
  bytesAvail : ℕ → ℕ
  mem : ℕ → ℕ

/-- `MLX90641::readRegister` (lines 202-230): address-write phase, 2-byte
read, and Hamming masking to 11 bits for the EEPROM range
`0x2400 ≤ reg ≤ 0x273F` only. -/
def readRegister (t : Transport) (reg : ℕ) : Option ℕ :=
  if t.ack reg = false then none
  else if t.bytesAvail reg < 2 then none
  else if 0x2400 ≤ reg ∧ reg ≤ 0x273F then some (t.mem reg % 65536 % 2048)
  else some (t.mem reg % 65536)

/-- Word delivered by a block read for address `a`: masked to 11 bits iff the
address lies in the RAM range `0x0400 ≤ a < 0x0800` (lines 256-258). -/
def ramMaskWord (t : Transport) (a : ℕ) : ℕ :=
  if 0x0400 ≤ a ∧ a < 0x0800 then t.mem a % 65536 % 2048 else t.mem a % 65536

/-- One chunk transaction of `readMultipleRegisters`: address-write phase at
`addr`, request `2*n` bytes, fail on underflow (`available() < 2` for some
word), deliver `n` RAM-masked words. -/
def readChunk (t : Transport) (addr n : ℕ) : Option (List ℕ) :=
  if t.ack addr = false then none
  else if t.bytesAvail addr < 2 * n then none
  else some ((List.range n).map fun i => ramMaskWord t (addr + i))

/-- Number of chunk iterations of the `while (wordsRead < length)` loop:
`⌈length / 16⌉` with `CHUNK_SIZE = 16`. -/
def numChunks (len : ℕ) : ℕ := (len + 15) / 16

/-- Sequential chunk reads for the chunk indices in `ks`; any chunk failure
aborts the whole call. -/
def readChunkSeq (t : Transport) (addr len : ℕ) : List ℕ → Option (List ℕ)
  | [] => some []
  | k :: ks =>
    match readChunk t (addr + 16 * k) (min 16 (len - 16 * k)),
        readChunkSeq t addr len ks with
    | some ws, some rest => some (ws ++ rest)
    | _, _ => none

/-- `MLX90641::readMultipleRegisters` (lines 232-270): `len` words starting
at `addr`, split into chunks of `min 16 (len − wordsRead)` words at
addresses `addr + 16*k`. -/
def readMultipleRegisters (t : Transport) (addr len : ℕ) : Option (List ℕ) :=
  readChunkSeq t addr len (List.range (numChunks len))

/-- Success condition of chunk `k` of a `readMultipleRegisters t addr len`
call: acknowledged address phase and at least `2 × (chunk word count)` bytes
available. -/
def chunkOk (t : Transport) (addr len k : ℕ) : Prop :=
  t.ack (addr + 16 * k) = true ∧ 2 * min 16 (len - 16 * k) ≤ t.bytesAvail (addr + 16 * k)

instance (t : Transport) (addr len k : ℕ) : Decidable (chunkOk t addr len k) := by
  unfold chunkOk; infer_instance

/-! ## MLX90641 thermal pipeline (MLX90641.cpp lines 8-191) -/

/-- Reinterpretation of a 16-bit word as a signed `int16_t`. -/
def toInt16 (n : ℕ) : ℤ :=
  if n % 65536 < 32768 then (n % 65536 : ℤ) else (n % 65536 : ℤ) - 65536

/-- Reinterpretation of an 8-bit byte as a signed `int8_t`. -/
def toInt8 (n : ℕ) : ℤ :=
  if n % 256 < 128 then (n % 256 : ℤ) else (n % 256 : ℤ) - 256

/-- Sign extension of an 11-bit field: `x & 0x07FF`, subtract 2048 when the
result exceeds 1023 (the `if (v > 1023) v -= 2048` idiom). -/
def sext11 (n : ℕ) : ℤ :=
  if n % 2048 ≤ 1023 then (n % 2048 : ℤ) else (n % 2048 : ℤ) - 2048

/-- Per-pixel calibration record `PixelParams` (MLX90641.h lines 13-18). -/
structure PixelParams where
  offset : ℤ
  alpha : ℚ
  kta : ℚ
  kv : ℚ
deriving DecidableEq, Repr

/-- `MLX90641::loadCalibrationData` (lines 41-72): one 832-word EEPROM block
read from `0x2400`; on failure the pixel table is left as it was (`old`, the
uninitialized member array).  On success, for each of the 192 pixels:
offset = `(int16_t) eeprom[512+i]`; alpha = `(int16_t) eeprom[384+i] / 2^alphaScale`
with `alphaScale = (eeprom[32] >> 12) & 0xF`; kta and kv are the signed
high/low bytes of `eeprom[640+i]` divided by `2^((eeprom[56] >> 8) & 0xF)`
and `2^((eeprom[56] >> 4) & 0xF)` respectively. -/
def loadCalibrationData (t : Transport) (old : ℕ → PixelParams) : ℕ → PixelParams :=
  match readMultipleRegisters t 0x2400 832 with
  | Option.none => old
  | Option.some e =>
    let get : ℕ → ℕ := fun i => e.getD i 0
    let alphaScale : ℕ := get 32 / 4096 % 16
    let ktaScale1 : ℕ := get 56 / 256 % 16
    let kvScale : ℕ := get 56 / 16 % 16
    fun i =>
      if i < 192 then
        ⟨toInt16 (get (512 + i)),
          (toInt16 (get (384 + i)) : ℚ) / (2 : ℚ) ^ alphaScale,
          (toInt8 (get (640 + i) / 256) : ℚ) / (2 : ℚ) ^ ktaScale1,
          (toInt8 (get (640 + i)) : ℚ) / (2 : ℚ) ^ kvScale⟩
      else old i

/-- `MLX90641::checkNewData` (lines 272-281): read the status register
`0x8000` and test bit 3 ("new data available in RAM"); a failed read counts
as no new data. -/
def checkNewData (t : Transport) : Bool :=
  match readRegister t 0x8000 with
  | Option.some statusReg => decide (statusReg / 8 % 2 = 1)
  | Option.none => false

/-- `MLX90641::begin` (lines 8-35): probe transaction, control-register read
(`0x800D`) — both must succeed — then `loadCalibrationData()` (result
unchecked) and `initialized = true`.  Returns
`(return value, initialized, pixels)`. -/
def begin (t : Transport) (oldPixels : ℕ → PixelParams) :
    Bool × Bool × (ℕ → PixelParams) :=
  if t.probeAck = false then (false, false, oldPixels)
  else
    match readRegister t 0x800D with
    | Option.none => (false, false, oldPixels)
    | Option.some _ => (true, true, loadCalibrationData t oldPixels)

/-- Mean of the pixel block with rows `rlo ≤ r < rhi` and columns
`clo ≤ c < chi` of a 12-column row-major pixel array, exactly as the corner
loops of `readThermalData` (lines 128-180) accumulate and divide. -/
def regionAvg (px : ℕ → ℕ) (rlo rhi clo chi : ℕ) : ℚ :=
  ((∑ r in Finset.Ico rlo rhi, ∑ c in Finset.Ico clo chi, px (r * 12 + c) : ℕ) : ℚ)
    / (((rhi - rlo) * (chi - clo) : ℕ) : ℚ)

/-- Outputs published by a successful `readThermalData` call. -/
structure ThermalOutputs where
  vdd : ℚ
  ta : ℚ
  tl : ℚ
  tr : ℚ
  bl : ℚ
  br : ℚ
  ctr : ℚ
deriving DecidableEq, Repr

/-- `MLX90641::readThermalData` (lines 74-191).  Fails (`none`) iff the
device is not initialized, the new-data bit is clear, or the 192-word RAM
block read fails.  The nine ancillary `readRegister` calls (lines 85-97)
have their return values ignored in the source; a failed read leaves the
destination stack variable indeterminate, modelled by the `junk`
environment.  `vdd` and `ta` follow lines 99-126 exactly (float arithmetic
modelled over `ℚ`); the five region outputs are the plain averages of the
raw masked pixel words over rows 0-4/11-15 × columns 0-4/7-11 (corners) and
rows 6-9 × columns 4-7 (center) — no per-pixel compensation is applied and
the loaded `pixels` calibration table is not consulted. -/
def readThermalData (t : Transport) (junk : ℕ → ℕ) (initialized : Bool) :
    Option ThermalOutputs :=
  if initialized = false then Option.none
  else if checkNewData t = false then Option.none
  else
    match readMultipleRegisters t 0x0400 192 with
    | Option.none => Option.none
    | Option.some pxl =>
      let px : ℕ → ℕ := fun i => pxl.getD i 0
      let rr : ℕ → ℕ := fun a => (readRegister t a).getD (junk a)
      let ptat_raw := rr 0x05A0
      let vbe_raw := rr 0x0580
      let vddpix_raw := rr 0x05AA
      let vdd25_raw := rr 0x2426
      let kvdd_raw := rr 0x2427
      let ktptat_raw := rr 0x242A
      let kvptat_raw := rr 0x242B
      let alphaptat_raw := rr 0x242C
      let ptat25_raw_1 := rr 0x2428
      let ptat25_raw_2 := rr 0x2429
      let vddpix : ℤ := toInt16 vddpix_raw
      let vdd25 : ℤ := sext11 vdd25_raw * 25
      let kvdd : ℤ := sext11 kvdd_raw * 25
      let vdd : ℚ := ((vddpix : ℚ) - (vdd25 : ℚ)) / (kvdd : ℚ) + 33 / 10
      let ptat : ℤ := toInt16 ptat_raw
      let vbe : ℤ := toInt16 vbe_raw
      let kvptat : ℚ := (sext11 kvptat_raw : ℚ) / 4096
      let ktptat : ℚ := (sext11 ktptat_raw : ℚ) / 8
      let alpha_ptat : ℚ := ((alphaptat_raw % 2048 : ℕ) : ℚ) / 134217728
      let ptat25 : ℕ := (32 * (ptat25_raw_1 % 2048) + ptat25_raw_2 % 2048) % 65536
      let deltaV : ℚ := ((vddpix : ℚ) - (vdd25 : ℚ)) / (kvdd : ℚ)
      let v_ptat : ℚ := (ptat : ℚ) / ((ptat : ℚ) * alpha_ptat + (vbe : ℚ))
      let v_ptat_art : ℚ := v_ptat * 262144
      let ta : ℚ := ((v_ptat_art / (1 + kvptat * deltaV) - (ptat25 : ℚ)) / ktptat + 25) / 10
      Option.some
        ⟨vdd, ta,
          regionAvg px 0 5 0 5, regionAvg px 0 5 7 12,
          regionAvg px 11 16 0 5, regionAvg px 11 16 7 12,
          regionAvg px 6 10 4 8⟩

/-- Modelled from the spec (claim C1's formula): the arithmetic mean over a
pixel block of the compensated pixel temperature
`Ta + ((raw − offset − kta×(Ta−25) − kv×(Vdd−3.3)) / alpha) × 0.01`,
using the per-pixel calibration records.  This definition follows the
spec's words, to be compared with the region outputs the source computes. -/
def compensatedRegionMean (cal : ℕ → PixelParams) (px : ℕ → ℕ) (ta vdd : ℚ)
    (rlo rhi clo chi : ℕ) : ℚ :=
  (∑ r in Finset.Ico rlo rhi, ∑ c in Finset.Ico clo chi,
      (ta + (((px (r * 12 + c) : ℚ) - ((cal (r * 12 + c)).offset : ℚ)
          - (cal (r * 12 + c)).kta * (ta - 25)
          - (cal (r * 12 + c)).kv * (vdd - 33 / 10))
        / (cal (r * 12 + c)).alpha) * (1 / 100)))
    / (((rhi - rlo) * (chi - clo) : ℕ) : ℚ)

/-! ## Concrete transports used as test vectors -/

/-- Device word contents of the healthy test transport `t1`: new-data bit
set; kvdd word 1, ktptat word 8, ptat and vbe codes 1; EEPROM offset table
words 100 and alpha table words 1 (all scale words 0); every other word 0. -/
def t1mem : ℕ → ℕ := fun a =>
  if a = 0x8000 then 8
  else if a = 0x2427 then 1
  else if a = 0x242A then 8
  else if a = 0x05A0 then 1
  else if a = 0x0580 then 1
  else if 0x2600 ≤ a ∧ a < 0x26C0 then 100
  else if 0x2580 ≤ a ∧ a < 0x2640 then 1
  else 0

/-- Fully healthy transport. -/
def t1 : Transport := ⟨true, fun _ => true, fun _ => 1000000, t1mem⟩

/-- Device word contents of `t2` and `t3`: like `t1mem` without the EEPROM
calibration tables. -/
def t23mem : ℕ → ℕ := fun a =>
  if a = 0x8000 then 8
  else if a = 0x2427 then 1
  else if a = 0x242A then 8
  else if a = 0x05A0 then 1
  else if a = 0x0580 then 1
  else 0

/-- Transport whose address-write phase at the VDD25 calibration word
`0x2426` is not acknowledged, so that single ancillary register read fails
while everything else succeeds. -/
def t2 : Transport := ⟨true, fun a => decide (a ≠ 0x2426), fun _ => 1000000, t23mem⟩

/-- Transport whose address-write phase at `0x2400` (the first EEPROM
chunk) is not acknowledged, so the 832-word calibration image read fails
while the probe, the control register and the frame reads all succeed. -/
def t3 : Transport := ⟨true, fun a => decide (a ≠ 0x2400), fun _ => 1000000, t23mem⟩

/-- Healthy transport whose every word reads back as `0xFFFF`. -/
def t8 : Transport := ⟨true, fun _ => true, fun _ => 1000000, fun _ => 0xFFFF⟩

/-- Synthetic 16×12 pixel grid: value 7 on rows 0-3 × columns 0-3, value
1007 everywhere else. -/
def px5 : ℕ → ℕ := fun i => if i / 12 < 4 ∧ i % 12 < 4 then 7 else 1007

/-- All-zero environment for indeterminate (uninitialized) locals. -/
def pxZero : ℕ → ℕ := fun _ => 0

/-- Arbitrary pre-load content of the pixel calibration table. -/
def calJunk : ℕ → PixelParams := fun _ => ⟨0, 1, 0, 0⟩

/-! ## Block-read structure lemmas -/

theorem readChunk_eq_none_iff (t : Transport) (addr n : ℕ) :
    readChunk t addr n = Option.none ↔
      ¬(t.ack addr = true ∧ 2 * n ≤ t.bytesAvail addr) := by
  unfold readChunk
  split_ifs with h1 h2
  · simp [h1]
  · simp only [Bool.not_eq_false] at h1
    simp [h1]
    omega
  · simp only [Bool.not_eq_false] at h1
    simp [h1]
    omega

theorem readChunkSeq_shift (t : Transport) (addr len : ℕ) (ks : List ℕ) :
    readChunkSeq t addr len (ks.map Nat.succ) = readChunkSeq t (addr + 16) (len - 16) ks := by
  induction ks with
  | nil => rfl
  | cons k ks ih =>
    have e1 : addr + 16 * Nat.succ k = addr + 16 + 16 * k := by omega
    have e2 : len - 16 * Nat.succ k = len - 16 - 16 * k := by omega
    simp only [List.map_cons, readChunkSeq, ih, e1, e2]

theorem numChunks_succ (len : ℕ) (h : 0 < len) :
    numChunks len = numChunks (len - 16) + 1 := by
  unfold numChunks
  omega

theorem readMultipleRegisters_step (t : Transport) (addr len : ℕ) (h : 0 < len) :
    readMultipleRegisters t addr len =
      match readChunk t addr (min 16 len),
          readMultipleRegisters t (addr + 16) (len - 16) with
      | Option.some ws, Option.some rest => Option.some (ws ++ rest)
      | _, _ => Option.none := by
  unfold readMultipleRegisters
  rw [numChunks_succ len h, List.range_succ_eq_map]
  simp only [readChunkSeq, readChunkSeq_shift, Nat.mul_zero, Nat.add_zero, Nat.sub_zero]

theorem chunkOk_shift (t : Transport) (addr len k : ℕ) :
    chunkOk t (addr + 16) (len - 16) k ↔ chunkOk t addr len (k + 1) := by
  unfold chunkOk
  have e1 : addr + 16 + 16 * k = addr + 16 * (k + 1) := by ring
  have e2 : len - 16 - 16 * k = len - 16 * (k + 1) := by omega
  rw [e1, e2]

theorem readMultipleRegisters_eq_none_iff (t : Transport) : ∀ len addr,
    readMultipleRegisters t addr len = Option.none ↔
      ∃ k, 16 * k < len ∧ ¬chunkOk t addr len k := by
  intro len
  induction len using Nat.strong_induction_on with
  | _ len ih =>
    intro addr
    rcases Nat.eq_zero_or_pos len with h0 | h0
    · subst h0
      simp [readMultipleRegisters, numChunks, readChunkSeq]
    · rw [readMultipleRegisters_step t addr len h0]
      have hmatch : (match readChunk t addr (min 16 len),
            readMultipleRegisters t (addr + 16) (len - 16) with
          | Option.some ws, Option.some rest => Option.some (ws ++ rest)
          | _, _ => Option.none) = Option.none ↔
          readChunk t addr (min 16 len) = Option.none ∨
            readMultipleRegisters t (addr + 16) (len - 16) = Option.none := by
        rcases readChunk t addr (min 16 len) with _ | ws <;>
          rcases readMultipleRegisters t (addr + 16) (len - 16) with _ | rest <;> simp
      rw [hmatch, readChunk_eq_none_iff, ih (len - 16) (by omega) (addr + 16)]
      constructor
      · rintro (hfail | ⟨k, hk, hko⟩)
        · refine ⟨0, by omega, ?_⟩
          unfold chunkOk
          simpa using hfail
        · exact ⟨k + 1, by omega, fun hc => hko ((chunkOk_shift t addr len k).mpr hc)⟩
      · rintro ⟨k, hk, hko⟩
        rcases k with _ | k
        · left
          intro hc
          apply hko
          unfold chunkOk
          simpa using hc
        · right
          exact ⟨k, by omega, fun hc => hko ((chunkOk_shift t addr len k).mp hc)⟩

theorem readMultipleRegisters_some_spec (t : Transport) : ∀ len addr ws,
    readMultipleRegisters t addr len = Option.some ws →
    ws = (List.range len).map fun i => ramMaskWord t (addr + i) := by
  intro len
  induction len using Nat.strong_induction_on with
  | _ len ih =>
    intro addr ws h
    rcases Nat.eq_zero_or_pos len with h0 | h0
    · subst h0
      simp [readMultipleRegisters, numChunks, readChunkSeq] at h
      simpa using h
    · rw [readMultipleRegisters_step t addr len h0] at h
      rcases hc : readChunk t addr (min 16 len) with _ | ws1 <;> rw [hc] at h
      · exact absurd h (by simp)
      rcases hr : readMultipleRegisters t (addr + 16) (len - 16) with _ | rest <;>
        rw [hr] at h
      · exact absurd h (by simp)
      have hws : ws = ws1 ++ rest := by
        injection h with h'
        exact h'.symm
      have hws1 : ws1 = (List.range (min 16 len)).map fun i => ramMaskWord t (addr + i) := by
        unfold readChunk at hc
        split_ifs at hc
        injection hc with h'
        exact h'.symm
      have hrest : rest = (List.range (len - 16)).map fun i => ramMaskWord t (addr + 16 + i) :=
        ih (len - 16) (by omega) (addr + 16) rest hr
      rcases Nat.le_total len 16 with h16 | h16
      · have hm : min 16 len = len := by omega
        have hz : len - 16 = 0 := by omega
        rw [hws, hws1, hrest, hm, hz]
        simp
      · have hm : min 16 len = 16 := by omega
        have hsplit : len = 16 + (len - 16) := by omega
        rw [hws, hws1, hrest, hm]
        conv_rhs => rw [hsplit, List.range_add]
        simp only [List.map_append, List.map_map]
        congr 1
        apply List.map_congr_left
        intro i _
        simp only [Function.comp_apply]
        congr 1
        omega

theorem readMultipleRegisters_getD (t : Transport) (addr len i : ℕ) (ws : List ℕ)
    (h : readMultipleRegisters t addr len = Option.some ws) (hi : i < len) :
    ws.getD i 0 = ramMaskWord t (addr + i) := by
  rw [readMultipleRegisters_some_spec t len addr ws h]
  rw [List.getD_eq_getElem?_getD, List.getElem?_map, List.getElem?_range hi]
  rfl

theorem readMultipleRegisters_length (t : Transport) (addr len : ℕ) (ws : List ℕ)
    (h : readMultipleRegisters t addr len = Option.some ws) : ws.length = len := by
  rw [readMultipleRegisters_some_spec t len addr ws h]
  simp

/-- C8 counterexample: the claim asserts that a raw word `0xFFFF` read from
an address in a designated EEPROM/RAM coded range is reported as `0x07FF`
through both read paths.  But a single-register read of the RAM-coded
address `0x0400` reports the word unmasked, and a block read of the
EEPROM-coded address `0x2400` reports the word unmasked as well: each read
path masks only its own range. -/
theorem c8_masking_counterexample :
    readRegister t8 0x0400 = Option.some 0xFFFF ∧
    readMultipleRegisters t8 0x2400 1 = Option.some [0xFFFF] ∧
    (0xFFFF : ℕ) ≠ 0x07FF :=
  ⟨by decide, by decide, by decide⟩

/-- C8 (amended): single-register reads mask to the low 11 bits exactly the
EEPROM range `0x2400..0x273F`, block reads mask exactly the RAM range
`0x0400..0x07FF`; each path reports every other address unmasked with all
16 bits. -/
theorem c8_masking_amended (t : Transport) :
    (∀ reg v, readRegister t reg = Option.some v →
      v = if 0x2400 ≤ reg ∧ reg ≤ 0x273F then t.mem reg % 65536 % 2048
          else t.mem reg % 65536) ∧
    (∀ addr len ws i, readMultipleRegisters t addr len = Option.some ws → i < len →
      ws.getD i 0 = if 0x0400 ≤ addr + i ∧ addr + i < 0x0800 then
            t.mem (addr + i) % 65536 % 2048
          else t.mem (addr + i) % 65536) := by
  constructor
  · intro reg v h
    unfold readRegister at h
    split_ifs at h with h1 h2 h3
    · rw [if_pos h3]
      injection h with h'
      exact h'.symm
    · rw [if_neg h3]
      injection h with h'
      exact h'.symm
  · intro addr len ws i h hi
    rw [readMultipleRegisters_getD t addr len i ws h hi]
    rfl

/-- Witness for the C8 amended theorem at the all-ones transport. -/
theorem c8_masking_amended_witness :
    readRegister t8 0x2400 = Option.some 0x07FF ∧
    (0x07FF : ℕ) = if (0x2400 : ℕ) ≤ 0x2400 ∧ (0x2400 : ℕ) ≤ 0x273F then
        Transport.mem t8 0x2400 % 65536 % 2048
      else Transport.mem t8 0x2400 % 65536 :=
  ⟨by decide, (c8_masking_amended t8).1 0x2400 0x07FF (by decide)⟩

/-- C9: a block read of `len` words is performed in chunk transactions of
`min 16 (len − 16k)` words at addresses `addr + 16k`; the call fails
(returning nothing — no partial result is handed to the caller) exactly
when some chunk's address phase is unacknowledged or delivers fewer bytes
than requested, and on success the caller receives all `len` masked words.
(The inter-chunk `delay(5)` is timing behavior outside the embedding.) -/
theorem c9_block_read_chunked (t : Transport) (addr len : ℕ) :
    (readMultipleRegisters t addr len = Option.none ↔
      ∃ k, 16 * k < len ∧ ¬chunkOk t addr len k) ∧
    (∀ ws, readMultipleRegisters t addr len = Option.some ws →
      ws = (List.range len).map fun i => ramMaskWord t (addr + i)) :=
  ⟨readMultipleRegisters_eq_none_iff t len addr,
    fun ws h => readMultipleRegisters_some_spec t len addr ws h⟩

/-- Witness for C9 on an 18-word (two-chunk) read from the all-ones
transport. -/
theorem c9_block_read_chunked_witness :
    List.replicate 18 (0xFFFF : ℕ) =
      (List.range 18).map fun i => ramMaskWord t8 (0x2400 + i) :=
  (c9_block_read_chunked t8 0x2400 18).2 (List.replicate 18 0xFFFF) (by decide)

/-- C4 counterexample: at the claim's own cited inputs (gain 25,
integration 300 ms, full 20000, ir 5000) the spec's formula
`(full − ir) × (1 − ir/full) / (gain × integration/200)` yields 300, but the
source's normalized visible signal (no `(1 − ir/full)` factor, `niter = 1`)
is 400, so the published `mpsas` uses `ln 400`, not `ln 300`. -/
theorem c4_vis_counterexample :
    specClaimVIS 5000 20000 25 300 = 300 ∧
    calculate_sqm_vis 5000 20000 25 300 1 = Option.some 400 ∧
    (300 : ℚ) ≠ 400 := by
  refine ⟨?_, ?_, by norm_num⟩
  · unfold specClaimVIS
    norm_num
  · unfold calculate_sqm_vis
    norm_num

/-- C4 (amended): the source's normalized visible signal is
`VIS = (full − ir) / (gain × (integration/200) × niter)`; at gain 25,
integration 300 ms, full 20000, ir 5000, niter 1 this gives `VIS = 400`
and the sample is valid with
`mpsas = offset_base − magnitude_const × ln 400 + calibration_offset` and
`dmpsas = magnitude_const / sqrt 15000` (exact-real model of the float
computation). -/
theorem c4_sqm_amended (sqmOffsetBase sqmMagnitude calibrationOffset : ℝ) :
    calculate_sqm_from_raw 5000 20000 25 300 1 sqmOffsetBase sqmMagnitude calibrationOffset =
      ⟨sqmOffsetBase - sqmMagnitude * Real.log 400 + calibrationOffset,
        sqmMagnitude / Real.sqrt 15000, true⟩ := by
  unfold calculate_sqm_from_raw
  norm_num

/-- C5 counterexample: on the synthetic 16×12 grid `px5`, whose pixels on
rows 0-3 × columns 0-3 all hold `T = 7`, the top-left region output of the
source is the mean of the 5×5 block rows 0-4 × columns 0-4, which evaluates
to 367, not to `T = 7` as the claim requires. -/
theorem c5_corner_counterexample :
    regionAvg px5 0 5 0 5 = 367 ∧ (367 : ℚ) ≠ 7 := by
  constructor
  · have hs : (∑ r in Finset.Ico 0 5, ∑ c in Finset.Ico 0 5, px5 (r * 12 + c)) = 9175 := by
      decide
    unfold regionAvg
    rw [hs]
    norm_num
  · norm_num

/-- C5 (amended): the corner region blocks are 5×5 (the top-left block is
rows 0-4 × columns 0-4); when every pixel of that 5×5 block holds a
constant `T`, the top-left region output equals `T` exactly. -/
theorem c5_corner_amended (px : ℕ → ℕ) (T : ℕ)
    (h : ∀ r < 5, ∀ c < 5, px (r * 12 + c) = T) :
    regionAvg px 0 5 0 5 = (T : ℚ) := by
  unfold regionAvg
  have hrow : ∀ r ∈ Finset.Ico 0 5, (∑ c in Finset.Ico 0 5, px (r * 12 + c)) = 5 * T := by
    intro r hr
    simp only [Finset.mem_Ico] at hr
    rw [Finset.sum_congr rfl fun c hc => h r hr.2 c (by simp only [Finset.mem_Ico] at hc; omega)]
    simp [mul_comm]
  rw [Finset.sum_congr rfl hrow]
  simp only [Finset.sum_const, Nat.card_Ico, Nat.sub_zero, smul_eq_mul]
  push_cast
  field_simp
  ring

/-- Witness for the C5 amended theorem on a constant grid. -/
theorem c5_corner_amended_witness :
    regionAvg (fun _ => 7) 0 5 0 5 = ((7 : ℕ) : ℚ) :=
  c5_corner_amended (fun _ => 7) 7 fun _ _ _ _ => rfl

/-- C10: after any history of `readLightData` calls starting from the empty
buffers, the next call stores the sample and increments the occupancy
capped at 16 before computing the averages, so the averaging divisor
`buffer_count` lies in 1..16 (never zero) and the write index stays
strictly below the capacity 16. -/
theorem c10_buffer_safety (samples : List (ℕ × ℕ)) (full_raw ir_raw : ℕ) :
    (readLightData_buffers (runLight samples) full_raw ir_raw).1.buffer_count
        = min ((runLight samples).buffer_count + 1) 16 ∧
    1 ≤ (readLightData_buffers (runLight samples) full_raw ir_raw).1.buffer_count ∧
    (readLightData_buffers (runLight samples) full_raw ir_raw).1.buffer_count ≤ 16 ∧
    (readLightData_buffers (runLight samples) full_raw ir_raw).1.buffer_index < 16 := by
  have hinv : ∀ l : List (ℕ × ℕ),
      (runLight l).buffer_count ≤ 16 ∧ (runLight l).buffer_index < 16 := by
    intro l
    induction l with
    | nil => exact ⟨by norm_num [runLight, initBuffers], by norm_num [runLight, initBuffers]⟩
    | cons p rest ih =>
      obtain ⟨f, ir⟩ := p
      obtain ⟨h1, h2⟩ := ih
      simp only [runLight, readLightData_buffers, pushSample, MOVING_AVG_SIZE]
      constructor
      · split_ifs <;> omega
      · omega
  obtain ⟨h1, h2⟩ := hinv samples
  simp only [readLightData_buffers, pushSample, MOVING_AVG_SIZE]
  refine ⟨?_, ?_, ?_, ?_⟩
  · split_ifs <;> omega
  · split_ifs <;> omega
  · split_ifs <;> omega
  · omega

theorem adjustCore_gap (c : SatClass) (b : Bool) (g : Gain) (it : ITime) (t0 : AdjType) :
    levelGap (gainIdx g) (gainIdx (adjustCore c b g it t0).1)
        ≤ (if c = SatClass.extreme then 2 else 1) ∧
    levelGap (itIdx it) (itIdx (adjustCore c b g it t0).2.1) ≤ 1 := by
  revert c b g it t0
  decide

theorem classify_extreme_iff (full : ℕ) :
    classify full = SatClass.extreme ↔ 35000 < full := by
  unfold classify
  split_ifs <;> simp_all

/-- C6: every gain transition and every integration-time transition of the
control step moves by at most one enumerated level, except under extreme
saturation (`full > 35000`) where at most one intermediate level may be
skipped (a move of at most two positions).  In fact the integration time
always moves by at most one level — the aggressive integration drops of
lines 117-123 are overwritten by the chained `full > 30000` branch — which
satisfies the claim's bound a fortiori. -/
theorem c6_transitions_adjacent (full_value : ℕ) (s : TslState) :
    levelGap (gainIdx s.current_gain)
        (gainIdx ((adjustGainAndIntegrationTime full_value s).1.current_gain))
      ≤ (if 35000 < full_value then 2 else 1) ∧
    levelGap (itIdx s.current_integration_time)
        (itIdx ((adjustGainAndIntegrationTime full_value s).1.current_integration_time))
      ≤ (if 35000 < full_value then 2 else 1) := by
  obtain ⟨hg1, hg2⟩ := adjustCore_gap (classify full_value)
    (decide (full_value = s.previous_measurement))
    s.current_gain s.current_integration_time s.last_adjustment_type
  constructor
  · by_cases hf : 35000 < full_value
    · rw [if_pos hf]
      rw [if_pos ((classify_extreme_iff full_value).mpr hf)] at hg1
      exact hg1
    · rw [if_neg hf]
      rw [if_neg fun hc => hf ((classify_extreme_iff full_value).mp hc)] at hg1
      exact hg1
  · exact le_trans hg2 (by split_ifs <;> norm_num)

theorem classify_saturated (full : ℕ) (h : 32000 < full) :
    classify full = SatClass.regular ∨ classify full = SatClass.extreme := by
  unfold classify
  split_ifs
  · exact Or.inr rfl
  · exact Or.inl rfl

set_option maxRecDepth 4000 in
theorem absRun_regular_converges : ∀ (k : ℕ) (x : Gain × ITime × AdjType),
    (absRun SatClass.regular (12 + k) x).1 = Gain.low ∧
    (absRun SatClass.regular (12 + k) x).2.1 = ITime.t100 := by
  intro k
  induction k with
  | zero => decide
  | succ k ih =>
    intro x
    have e : (12 : ℕ) + (k + 1) = (12 + k) + 1 := by omega
    rw [e]
    exact ih (absStep SatClass.regular x)

set_option maxRecDepth 4000 in
theorem absRun_extreme_converges : ∀ (k : ℕ) (x : Gain × ITime × AdjType),
    (absRun SatClass.extreme (12 + k) x).1 = Gain.low ∧
    (absRun SatClass.extreme (12 + k) x).2.1 = ITime.t100 := by
  intro k
  induction k with
  | zero => decide
  | succ k ih =>
    intro x
    have e : (12 : ℕ) + (k + 1) = (12 + k) + 1 := by omega
    rw [e]
    exact ih (absStep SatClass.extreme x)

theorem runSteps_absRun (full : ℕ) : ∀ (n : ℕ) (s : TslState),
    s.previous_measurement = full →
    ((runSteps full n s).current_gain, (runSteps full n s).current_integration_time,
        (runSteps full n s).last_adjustment_type)
      = absRun (classify full) n
          (s.current_gain, s.current_integration_time, s.last_adjustment_type)
    ∧ (runSteps full n s).previous_measurement = full := by
  intro n
  induction n with
  | zero => intro s h; exact ⟨rfl, h⟩
  | succ n ih =>
    intro s h
    have hsame : decide (full = s.previous_measurement) = true := by simp [h]
    have hstep : (adjustGainAndIntegrationTime full s).1 =
        ⟨(absStep (classify full)
            (s.current_gain, s.current_integration_time, s.last_adjustment_type)).1,
          (absStep (classify full)
            (s.current_gain, s.current_integration_time, s.last_adjustment_type)).2.1,
          (absStep (classify full)
            (s.current_gain, s.current_integration_time, s.last_adjustment_type)).2.2,
          full⟩ := by
      simp [adjustGainAndIntegrationTime, absStep, hsame]
    have hrec := ih ((adjustGainAndIntegrationTime full s).1) (by rw [hstep])
    have hunfold : runSteps full (n + 1) s
        = runSteps full n (adjustGainAndIntegrationTime full s).1 := rfl
    constructor
    · rw [hunfold, hrec.1, hstep]
      rfl
    · rw [hunfold]
      exact hrec.2

/-- C7: starting from any controller state, repeated control steps under a
constant raw input above the saturation threshold (32000) reach LOW gain
and 100 ms integration within 13 steps, and every step after that leaves
the gain and integration unchanged (for all `n ≥ 13` the state has LOW
gain and 100 ms integration). -/
theorem c7_saturated_converges (full_value : ℕ) (s : TslState) (n : ℕ)
    (hsat : 32000 < full_value) (hn : 13 ≤ n) :
    (runSteps full_value n s).current_gain = Gain.low ∧
    (runSteps full_value n s).current_integration_time = ITime.t100 := by
  obtain ⟨m, rfl⟩ : ∃ m, n = (12 + m) + 1 := ⟨n - 13, by omega⟩
  have hgoal : runSteps full_value ((12 + m) + 1) s
      = runSteps full_value (12 + m) (adjustGainAndIntegrationTime full_value s).1 := rfl
  rw [hgoal]
  have hb := runSteps_absRun full_value (12 + m)
    (adjustGainAndIntegrationTime full_value s).1 rfl
  have h1 := congrArg Prod.fst hb.1
  have h2 := congrArg (fun p => p.2.1) hb.1
  simp only at h1 h2
  rcases classify_saturated full_value hsat with hc | hc <;> rw [hc] at h1 h2
  · obtain ⟨e1, e2⟩ := absRun_regular_converges m
      ((adjustGainAndIntegrationTime full_value s).1.current_gain,
        (adjustGainAndIntegrationTime full_value s).1.current_integration_time,
        (adjustGainAndIntegrationTime full_value s).1.last_adjustment_type)
    exact ⟨h1.trans e1, h2.trans e2⟩
  · obtain ⟨e1, e2⟩ := absRun_extreme_converges m
      ((adjustGainAndIntegrationTime full_value s).1.current_gain,
        (adjustGainAndIntegrationTime full_value s).1.current_integration_time,
        (adjustGainAndIntegrationTime full_value s).1.last_adjustment_type)
    exact ⟨h1.trans e1, h2.trans e2⟩

/-- Witness for C7 from the initial controller state under constant
saturated input 33000. -/
theorem c7_saturated_converges_witness :
    ((32000 : ℕ) < 33000 ∧ (13 : ℕ) ≤ 13) ∧
    (runSteps 33000 13 ⟨Gain.med, ITime.t300, AdjType.none, 0⟩).current_gain = Gain.low ∧
    (runSteps 33000 13 ⟨Gain.med, ITime.t300, AdjType.none, 0⟩).current_integration_time
      = ITime.t100 :=
  ⟨⟨by decide, by decide⟩,
    c7_saturated_converges 33000 ⟨Gain.med, ITime.t300, AdjType.none, 0⟩ 13
      (by decide) (by decide)⟩

set_option maxRecDepth 10000 in
/-- Helper for the region averages of an all-zero pixel frame: every region
mean of the zero grid is zero. -/
theorem regionAvg_zero (rlo rhi clo chi : ℕ) :
    regionAvg (fun i => (List.replicate 192 (0 : ℕ)).getD i 0) rlo rhi clo chi = 0 := by
  have h : ∀ i, (List.replicate 192 (0 : ℕ)).getD i 0 = 0 := by
    intro i
    rw [List.getD_eq_getElem?_getD, List.getElem?_replicate]
    rcases lt_or_ge i 192 with hi | hi
    · rw [if_pos hi]
      rfl
    · rw [if_neg (by omega)]
      rfl
  unfold regionAvg
  rw [Finset.sum_congr rfl fun r hr => Finset.sum_congr rfl fun c hc => h (r * 12 + c)]
  simp

set_option maxRecDepth 10000 in
/-- Helper evaluation of `readThermalData` on any transport whose frame
reads deliver the fixed register values below and an all-zero pixel block:
the published outputs are `Vdd = 3.3`, `Ta = 26216.9` and five zero region
values. -/
theorem readThermalData_eval (t : Transport)
    (hnew : checkNewData t = true)
    (hblk : readMultipleRegisters t 0x0400 192 = Option.some (List.replicate 192 0))
    (r1 : (readRegister t 0x05A0).getD (pxZero 0x05A0) = 1)
    (r2 : (readRegister t 0x0580).getD (pxZero 0x0580) = 1)
    (r3 : (readRegister t 0x05AA).getD (pxZero 0x05AA) = 0)
    (r4 : (readRegister t 0x2426).getD (pxZero 0x2426) = 0)
    (r5 : (readRegister t 0x2427).getD (pxZero 0x2427) = 1)
    (r6 : (readRegister t 0x242A).getD (pxZero 0x242A) = 8)
    (r7 : (readRegister t 0x242B).getD (pxZero 0x242B) = 0)
    (r8 : (readRegister t 0x242C).getD (pxZero 0x242C) = 0)
    (r9 : (readRegister t 0x2428).getD (pxZero 0x2428) = 0)
    (r10 : (readRegister t 0x2429).getD (pxZero 0x2429) = 0) :
    readThermalData t pxZero true =
      Option.some ⟨33 / 10, 262169 / 10, 0, 0, 0, 0, 0⟩ := by
  unfold readThermalData
  simp only [hnew, hblk, r1, r2, r3, r4, r5, r6, r7, r8, r9, r10, regionAvg_zero]
  norm_num [toInt16, sext11, ThermalOutputs.mk.injEq]

/-- Helper: the 832-word calibration image read succeeds on `t1` and
delivers the (EEPROM-range, hence unmasked) device words. -/
theorem t1_eeprom_read :
    readMultipleRegisters t1 0x2400 832
      = Option.some ((List.range 832).map fun k => ramMaskWord t1 (0x2400 + k)) := by
  rcases hw : readMultipleRegisters t1 0x2400 832 with _ | ws
  · have hs : (readMultipleRegisters t1 0x2400 832).isSome = true := by decide
    rw [hw] at hs
    exact absurd hs (by simp)
  · rw [readMultipleRegisters_some_spec t1 832 0x2400 ws hw]

set_option maxRecDepth 10000 in
/-- Helper: the calibration records loaded from `t1` for the pixels of the
top-left region (indices ≤ 52) are offset 100, alpha 1, kta 0, kv 100. -/
theorem t1_cal (i : ℕ) (hi : i ≤ 52) :
    loadCalibrationData t1 calJunk i = ⟨100, 1, 0, 100⟩ := by
  have hget : ∀ j, j < 832 →
      ((List.range 832).map fun k => ramMaskWord t1 (0x2400 + k)).getD j 0
        = ramMaskWord t1 (0x2400 + j) := by
    intro j hj
    rw [List.getD_eq_getElem?_getD, List.getElem?_map, List.getElem?_range hj]
    rfl
  have hoff : ramMaskWord t1 (0x2400 + (512 + i)) = 100 := by
    unfold ramMaskWord
    rw [if_neg (by omega)]
    show t1mem (0x2400 + (512 + i)) % 65536 = 100
    unfold t1mem
    rw [if_neg (by omega), if_neg (by omega), if_neg (by omega), if_neg (by omega),
      if_neg (by omega), if_pos (by omega)]
  have halpha : ramMaskWord t1 (0x2400 + (384 + i)) = 1 := by
    unfold ramMaskWord
    rw [if_neg (by omega)]
    show t1mem (0x2400 + (384 + i)) % 65536 = 1
    unfold t1mem
    rw [if_neg (by omega), if_neg (by omega), if_neg (by omega), if_neg (by omega),
      if_neg (by omega), if_neg (by omega), if_pos (by omega)]
  have hktakv : ramMaskWord t1 (0x2400 + (640 + i)) = 100 := by
    unfold ramMaskWord
    rw [if_neg (by omega)]
    show t1mem (0x2400 + (640 + i)) % 65536 = 100
    unfold t1mem
    rw [if_neg (by omega), if_neg (by omega), if_neg (by omega), if_neg (by omega),
      if_neg (by omega), if_pos (by omega)]
  unfold loadCalibrationData
  rw [t1_eeprom_read]
  simp only
  rw [if_pos (by omega : i < 192)]
  rw [hget 32 (by norm_num), hget 56 (by norm_num), hget (512 + i) (by omega),
    hget (384 + i) (by omega), hget (640 + i) (by omega)]
  rw [hoff, halpha, hktakv]
  have e32 : ramMaskWord t1 (0x2400 + 32) = 0 := by decide
  have e56 : ramMaskWord t1 (0x2400 + 56) = 0 := by decide
  rw [e32, e56]
  norm_num [toInt16, toInt8, PixelParams.mk.injEq]

set_option maxRecDepth 10000 in
/-- Helper: the compensated top-left region mean for the `t1` frame
(`Ta = 26216.9`, `Vdd = 3.3`, all raw pixels 0) is `Ta − 1 = 26215.9`. -/
theorem t1_comp_mean :
    compensatedRegionMean (loadCalibrationData t1 calJunk) pxZero
      (262169 / 10) (33 / 10) 0 5 0 5 = 262159 / 10 := by
  have hcell : ∀ r ∈ Finset.Ico (0 : ℕ) 5, ∀ c ∈ Finset.Ico (0 : ℕ) 5,
      ((262169 / 10 : ℚ) + (((pxZero (r * 12 + c) : ℕ) : ℚ)
          - ((loadCalibrationData t1 calJunk (r * 12 + c)).offset : ℚ)
          - (loadCalibrationData t1 calJunk (r * 12 + c)).kta * (262169 / 10 - 25)
          - (loadCalibrationData t1 calJunk (r * 12 + c)).kv * (33 / 10 - 33 / 10))
        / (loadCalibrationData t1 calJunk (r * 12 + c)).alpha * (1 / 100))
        = (262159 / 10 : ℚ) := by
    intro r hr c hc
    simp only [Finset.mem_Ico] at hr hc
    rw [t1_cal (r * 12 + c) (by omega)]
    norm_num [pxZero]
  unfold compensatedRegionMean
  rw [Finset.sum_congr rfl fun r hr => Finset.sum_congr rfl fun c hc => hcell r hr c hc]
  simp only [Finset.sum_const, Nat.card_Ico, Nat.sub_zero, smul_eq_mul]
  norm_num

set_option maxRecDepth 10000 in
/-- C1 counterexample: at the healthy transport `t1` (whose calibration
image loads offset 100, alpha 1, kta 0 for every top-left pixel, and whose
192 raw pixel words are all 0), `readThermalData` publishes a top-left
region value of 0, while the arithmetic mean over that region of the
compensated pixel temperature `Ta + ((raw − offset − kta×(Ta−25) −
kv×(Vdd−3.3))/alpha) × 0.01`, computed with the loaded PixelCalibration
records, is `Ta − 1 = 26215.9`.  The published region values are not the
compensated means the claim describes. -/
theorem c1_regions_not_compensated_counterexample :
    readThermalData t1 pxZero true = Option.some ⟨33 / 10, 262169 / 10, 0, 0, 0, 0, 0⟩ ∧
    compensatedRegionMean (loadCalibrationData t1 calJunk) pxZero
      (262169 / 10) (33 / 10) 0 5 0 5 = 262159 / 10 ∧
    ((0 : ℚ) ≠ 262159 / 10) :=
  ⟨readThermalData_eval t1 (by decide) (by decide) (by decide) (by decide) (by decide)
      (by decide) (by decide) (by decide) (by decide) (by decide) (by decide) (by decide),
    t1_comp_mean, by norm_num⟩

/-- C1 (amended): for every successfully read thermal frame, each of the
five published region values equals the arithmetic mean of the raw
(ECC-masked) pixel codes over its block — the corners are the 5×5 blocks
rows 0-4/11-15 × columns 0-4/7-11 and the center is the 4×4 block rows 6-9
× columns 4-7; no per-pixel compensation is applied and the loaded
PixelCalibration records are not used. -/
theorem c1_regions_are_raw_means (t : Transport) (junk : ℕ → ℕ) (pxl : List ℕ)
    (o : ThermalOutputs)
    (hblk : readMultipleRegisters t 0x0400 192 = Option.some pxl)
    (h : readThermalData t junk true = Option.some o) :
    o.tl = regionAvg (fun i => pxl.getD i 0) 0 5 0 5 ∧
    o.tr = regionAvg (fun i => pxl.getD i 0) 0 5 7 12 ∧
    o.bl = regionAvg (fun i => pxl.getD i 0) 11 16 0 5 ∧
    o.br = regionAvg (fun i => pxl.getD i 0) 11 16 7 12 ∧
    o.ctr = regionAvg (fun i => pxl.getD i 0) 6 10 4 8 := by
  unfold readThermalData at h
  by_cases hnew : checkNewData t = false
  · rw [if_neg (by simp), if_pos hnew] at h
    exact absurd h (by simp)
  · rw [if_neg (by simp), if_neg hnew, hblk] at h
    simp only [] at h
    injection h with h'
    subst h'
    exact ⟨rfl, rfl, rfl, rfl, rfl⟩

set_option maxRecDepth 10000 in
/-- Witness for the C1 amended theorem at transport `t1`. -/
theorem c1_regions_are_raw_means_witness :
    (⟨33 / 10, 262169 / 10, 0, 0, 0, 0, 0⟩ : ThermalOutputs).tl
        = regionAvg (fun i => (List.replicate 192 (0 : ℕ)).getD i 0) 0 5 0 5 ∧
    (⟨33 / 10, 262169 / 10, 0, 0, 0, 0, 0⟩ : ThermalOutputs).tr
        = regionAvg (fun i => (List.replicate 192 (0 : ℕ)).getD i 0) 0 5 7 12 ∧
    (⟨33 / 10, 262169 / 10, 0, 0, 0, 0, 0⟩ : ThermalOutputs).bl
        = regionAvg (fun i => (List.replicate 192 (0 : ℕ)).getD i 0) 11 16 0 5 ∧
    (⟨33 / 10, 262169 / 10, 0, 0, 0, 0, 0⟩ : ThermalOutputs).br
        = regionAvg (fun i => (List.replicate 192 (0 : ℕ)).getD i 0) 11 16 7 12 ∧
    (⟨33 / 10, 262169 / 10, 0, 0, 0, 0, 0⟩ : ThermalOutputs).ctr
        = regionAvg (fun i => (List.replicate 192 (0 : ℕ)).getD i 0) 6 10 4 8 :=
  c1_regions_are_raw_means t1 pxZero (List.replicate 192 0)
    ⟨33 / 10, 262169 / 10, 0, 0, 0, 0, 0⟩ (by decide)
    (readThermalData_eval t1 (by decide) (by decide) (by decide) (by decide) (by decide)
      (by decide) (by decide) (by decide) (by decide) (by decide) (by decide) (by decide))

set_option maxRecDepth 10000 in
/-- C2 (code bug): at transport `t2` the ancillary VDD25 register read at
`0x2426` fails (its address phase is never acknowledged), yet
`readThermalData` does not abort the frame: lines 85-97 ignore the
`readRegister` return values, so the call still succeeds and publishes
supply voltage, ambient temperature and all five region outputs, computed
from whatever the uninitialized local held (modelled here as 0). -/
theorem c2_ancillary_failure_ignored :
    readRegister t2 0x2426 = Option.none ∧
    readThermalData t2 pxZero true = Option.some ⟨33 / 10, 262169 / 10, 0, 0, 0, 0, 0⟩ :=
  ⟨by decide,
    readThermalData_eval t2 (by decide) (by decide) (by decide) (by decide) (by decide)
      (by decide) (by decide) (by decide) (by decide) (by decide) (by decide) (by decide)⟩

set_option maxRecDepth 10000 in
/-- C3 counterexample: at transport `t3` the one-time 832-word
calibration-image read fails, yet `begin` still returns true and marks the
pipeline available, and the next frame call succeeds rather than being a
no-op returning failure — the pipeline does not mark itself permanently
unavailable. -/
theorem c3_calibration_failure_not_fatal :
    readMultipleRegisters t3 0x2400 832 = Option.none ∧
    (begin t3 calJunk).1 = true ∧
    (begin t3 calJunk).2.1 = true ∧
    readThermalData t3 pxZero (begin t3 calJunk).2.1
      = Option.some ⟨33 / 10, 262169 / 10, 0, 0, 0, 0, 0⟩ := by
  have hb : (begin t3 calJunk).2.1 = true := by decide
  refine ⟨by decide, by decide, hb, ?_⟩
  rw [hb]
  exact readThermalData_eval t3 (by decide) (by decide) (by decide) (by decide) (by decide)
    (by decide) (by decide) (by decide) (by decide) (by decide) (by decide) (by decide)

/-- C3 (amended): a calibration-image read failure is silently ignored:
whenever the probe transaction and the control-register read succeed,
`begin` returns true and marks the pipeline initialized regardless of the
EEPROM read outcome, leaving the pixel calibration table unchanged on
failure; subsequent frame calls are not gated on the calibration load. -/
theorem c3_begin_ignores_calibration_failure (t : Transport) (old : ℕ → PixelParams)
    (hp : t.probeAck = true) (hr : (readRegister t 0x800D).isSome = true) :
    (begin t old).1 = true ∧ (begin t old).2.1 = true ∧
    (readMultipleRegisters t 0x2400 832 = Option.none → (begin t old).2.2 = old) := by
  unfold begin
  rw [hp]
  rcases hrr : readRegister t 0x800D with _ | v
  · rw [hrr] at hr
    exact absurd hr (by simp)
  · refine ⟨rfl, rfl, fun hfail => ?_⟩
    show loadCalibrationData t old = old
    unfold loadCalibrationData
    rw [hfail]

/-- Witness for the C3 amended theorem at transport `t3`. -/
theorem c3_begin_ignores_calibration_failure_witness :
    (begin t3 calJunk).1 = true ∧ (begin t3 calJunk).2.1 = true ∧
    (readMultipleRegisters t3 0x2400 832 = Option.none → (begin t3 calJunk).2.2 = calJunk) :=
  c3_begin_ignores_calibration_failure t3 calJunk (by decide) (by decide)


end AMSKY01
